import Mathlib

/-!
Verification development for the match-results extraction and
dimensional-normalization core of `Data-Scraper/KESMatchData.py`:
the stateful HTML table walk (`parse_table_matches`), the leg
reconstructor, the dimension builders (competitions, stages, clubs) and
the fact assembler from `main`.

The embedding works on decoded character data: an HTML `<tr>` is
abstracted to the fields the source inspects (a `<th>` with its optional
`cupheader`/`roundheader` divs, and the list of `<td>` cells with text,
bold marker and colspan attribute).  Pure helpers (`norm_text`,
`parse_score`, `norm_cup_name`, `_norm_key`) are translated function by
function.
-/

namespace KES

/-! ### Python string primitives -/

/-- Left-then-right whitespace strip on a char list, as Python `str.strip()`. -/
def stripChars (l : List Char) : List Char :=
  ((l.dropWhile Char.isWhitespace).reverse.dropWhile Char.isWhitespace).reverse

/-- Python `str.strip()`. -/
def pyStrip (s : String) : String := ⟨stripChars s.data⟩

/-- Python `str.upper()` (ASCII fragment; every name the claims touch is ASCII). -/
def pyUpper (s : String) : String := ⟨s.data.map Char.toUpper⟩

/-- Python `str.lower()` (ASCII fragment). -/
def pyLower (s : String) : String := ⟨s.data.map Char.toLower⟩

/-- Char-list test that `pre` begins `l`. -/
def beginsWith : List Char → List Char → Bool
  | [], _ => true
  | _ :: _, [] => false
  | a :: as, b :: bs => a == b && beginsWith as bs

/-- Substring occurrence test over char lists. -/
def hasSub (needle : List Char) : List Char → Bool
  | [] => beginsWith needle []
  | c :: cs => beginsWith needle (c :: cs) || hasSub needle cs

/-- Python `needle in hay` on strings. -/
def pyContains (hay needle : String) : Bool := hasSub needle.data hay.data

/-- Python `s.startswith(needle)`. -/
def pyStartsWith (s needle : String) : Bool := beginsWith needle.data s.data

/-- Lexicographic code-point comparison on char lists, as Python's `<=` on
strings (and hence the order `sorted` uses). -/
def charListLe : List Char → List Char → Bool
  | [], _ => true
  | _ :: _, [] => false
  | a :: as, b :: bs =>
    if a.toNat < b.toNat then true
    else if b.toNat < a.toNat then false
    else charListLe as bs

/-- Python `s <= t` on strings. -/
def pyLe (s t : String) : Bool := charListLe s.data t.data

/-- Decimal value of a digit string, as Python `int` on a digit-only string. -/
def natOfDigits (l : List Char) : Nat := l.foldl (fun n c => 10 * n + (c.toNat - 48)) 0

/-- The source's `parse_score`: match `^\s*(\d+)\s*[-–]\s*(\d+)\s*$` and return the
two integers, `none` when the text does not match. -/
def parseScore (s : String) : Option (Nat × Nat) :=
  let l1 := s.data.dropWhile Char.isWhitespace
  let d1 := l1.takeWhile Char.isDigit
  let r1 := l1.dropWhile Char.isDigit
  if d1.isEmpty then none
  else
    match r1.dropWhile Char.isWhitespace with
    | [] => none
    | c :: rest =>
      if c = '-' ∨ c = '–' then
        let r3 := rest.dropWhile Char.isWhitespace
        let d2 := r3.takeWhile Char.isDigit
        let r4 := r3.dropWhile Char.isDigit
        if d2.isEmpty then none
        else if (r4.dropWhile Char.isWhitespace).isEmpty then
          some (natOfDigits d1, natOfDigits d2)
        else none
      else none

/-- The source's `norm_text`: empty-guard, NBSP→space, strip.  The source's extra
byte-level mojibake repair (re-decoding through latin-1 when `Ã`/`Â` occurs) acts
on raw bytes and is outside this character-level embedding; no claim depends on it
and every concrete input used below is plain ASCII, where the branch is inert. -/
def normText (s : String) : String :=
  if s = "" then ""
  else pyStrip ⟨s.data.map (fun c => if c.toNat = 160 then ' ' else c)⟩

/-- The source's `_norm_key`: strip then lower-case. -/
def normKey (s : String) : String := pyLower (pyStrip s)

/-- Branch body of the source's `norm_cup_name` after the initial strip
(source lines 99–107). -/
def normCupCore (t : String) : String :=
  if t = "" then ""
  else if pyContains (pyUpper t) "UEFA CUP" || pyUpper t == "UEFA CUP" then "EUROPA LEAGUE"
  else if pyContains (pyUpper t) "EUROPA LEAGUE" || pyStartsWith (pyUpper t) "EUROPA" then
    "EUROPA LEAGUE"
  else if pyContains (pyUpper t) "CHAMPION" then "CHAMPIONS LEAGUE"
  else if pyContains (pyUpper t) "CONFERENCE" then "CONFERENCE LEAGUE"
  else t

/-- The source's `norm_cup_name`. -/
def normCupName (s : String) : String := normCupCore (pyStrip s)

/-- Modelled from the claim wording, verbatim: "contains `UEFA CUP` or starts with
`EUROPA` → `EUROPA LEAGUE`, contains `CHAMPION` → `CHAMPIONS LEAGUE`, contains
`CONFERENCE` → `CONFERENCE LEAGUE`, else unchanged", read case-insensitively
(tests on the uppercased name — the most charitable literal reading). -/
def specCupRulesStated (s : String) : String :=
  if pyContains (pyUpper s) "UEFA CUP" || pyStartsWith (pyUpper s) "EUROPA" then "EUROPA LEAGUE"
  else if pyContains (pyUpper s) "CHAMPION" then "CHAMPIONS LEAGUE"
  else if pyContains (pyUpper s) "CONFERENCE" then "CONFERENCE LEAGUE"
  else s

/-- The substring rules as the amended claim states them: like the stated rules but
with the additional "contains `EUROPA LEAGUE`" alias test the source performs, and
with the unchanged-name branch returning the whitespace-stripped name. -/
def specCupRulesAmended (s : String) : String :=
  if pyContains (pyUpper (pyStrip s)) "UEFA CUP" then "EUROPA LEAGUE"
  else if pyContains (pyUpper (pyStrip s)) "EUROPA LEAGUE" ||
      pyStartsWith (pyUpper (pyStrip s)) "EUROPA" then "EUROPA LEAGUE"
  else if pyContains (pyUpper (pyStrip s)) "CHAMPION" then "CHAMPIONS LEAGUE"
  else if pyContains (pyUpper (pyStrip s)) "CONFERENCE" then "CONFERENCE LEAGUE"
  else pyStrip s

/-! ### Data model of the table walk

An HTML `<tr>` is abstracted to the fields `parse_table_matches` inspects:
the first `<th>` (with the text of its `cupheader` / `roundheader` div, when
present) and the list of `<td>` cells, each with its raw text, whether it
contains a `<b>` element, and whether it carries a `colspan` attribute. -/

structure Cell where
  text : String
  bold : Bool
  colspan : Bool
deriving DecidableEq

structure ThInfo where
  cupDiv : Option String
  roundDiv : Option String
deriving DecidableEq

structure Tr where
  th : Option ThInfo
  tds : List Cell
deriving DecidableEq

def defCell : Cell := ⟨"", false, false⟩

/-- Text of the `i`-th `<td>`, raw (the walker applies `norm_text` itself). -/
def cellText (tds : List Cell) (i : Nat) : String := (tds.getD i defCell).text

/-- Bold marker of the `i`-th `<td>`. -/
def boldOf (tds : List Cell) (i : Nat) : Bool := (tds.getD i defCell).bold

/-- One accumulated per-leg candidate row, the dict appended to `rows_acc`
(schema `CSV_FIELDS`).  `winner` is a placeholder at this stage. -/
structure LegRow where
  season_page : Nat
  cup : String
  comp_stage : String
  leg_no : Nat
  home : String
  home_cc : String
  away : String
  away_cc : String
  score : String
  goals_home : String
  goals_away : String
  winner : String
  two_leg_winner : String
deriving DecidableEq

/-- The candidate rows emitted for one data row, shared by the `>=6`-cell branch
(source lines 124–176) and the `>=4`-cell fallback (lines 179–226): leg-1 row when
either team name is non-empty, leg-2 row (teams and printed goal figures swapped,
score rebuilt when both figures parsed) when the leg-2 text is non-empty. -/
def dataRows (year : Nat) (cup stage : String)
    (team1 team1cc team2 team2cc leg1txt leg2txt : String)
    (t1bold t2bold : Bool) : List LegRow :=
  let l1 := parseScore leg1txt
  let l2 := parseScore leg2txt
  let tlwName := if t1bold && !t2bold then team1 else if t2bold && !t1bold then team2 else ""
  (if team1 ≠ "" ∨ team2 ≠ "" then
    [{ season_page := year, cup := cup, comp_stage := stage, leg_no := 1,
       home := team1, home_cc := team1cc, away := team2, away_cc := team2cc,
       score := leg1txt,
       goals_home := match l1 with | some p => toString p.1 | none => "",
       goals_away := match l1 with | some p => toString p.2 | none => "",
       winner := "",
       two_leg_winner := if leg2txt ≠ "" then tlwName else "" }]
   else []) ++
  (if leg2txt ≠ "" then
    [{ season_page := year, cup := cup, comp_stage := stage, leg_no := 2,
       home := team2, home_cc := team2cc, away := team1, away_cc := team1cc,
       score := match l2 with
                | some p => toString p.2 ++ "-" ++ toString p.1
                | none => leg2txt,
       goals_home := match l2 with | some p => toString p.2 | none => "",
       goals_away := match l2 with | some p => toString p.1 | none => "",
       winner := "",
       two_leg_winner := "" }]
   else [])

/-- Handling of the `<td>` list of one row (the part of the loop body after the
header checks): skip empty rows, one-cell colspan separators and rows with fewer
than 4 cells; otherwise reconstruct via `dataRows`. -/
def processTds (year : Nat) (tds : List Cell) (cup stage : String) :
    String × String × List LegRow :=
  if tds.isEmpty then (cup, stage, [])
  else if tds.length == 1 && (tds.getD 0 defCell).colspan then (cup, stage, [])
  else if 6 ≤ tds.length then
    (cup, stage, dataRows year cup stage
      (normText (cellText tds 0)) (normText (cellText tds 1))
      (normText (cellText tds 2)) (normText (cellText tds 3))
      (normText (cellText tds 4)) (normText (cellText tds 5))
      (boldOf tds 0) (boldOf tds 2))
  else if 4 ≤ tds.length then
    (cup, stage, dataRows year cup stage
      (normText (cellText tds 0))
      (if 1 < tds.length then normText (cellText tds 1) else "")
      (if 2 < tds.length then normText (cellText tds 2) else "")
      (if 3 < tds.length then normText (cellText tds 3) else "")
      (if 4 < tds.length then normText (cellText tds 4) else "")
      (if 5 < tds.length then normText (cellText tds 5) else "")
      (boldOf tds 0) (boldOf tds 2))
  else (cup, stage, [])

/-- One iteration of the `parse_table_matches` row loop: a `<th>` holding a
`cupheader` div sets the competition and clears the stage; else a `roundheader`
div sets the stage; otherwise the `<td>` cells are processed. -/
def processTr (year : Nat) (tr : Tr) (cup stage : String) :
    String × String × List LegRow :=
  match tr.th with
  | some ti =>
    match ti.cupDiv with
    | some c => (normText c, "", [])
    | none =>
      match ti.roundDiv with
      | some r => (cup, normText r, [])
      | none => processTds year tr.tds cup stage
  | none => processTds year tr.tds cup stage

/-- The source's `parse_table_matches`: fold the row loop over the rows of a
table, threading the (competition, stage) context and accumulating rows. -/
def parseTableMatches (year : Nat) : List Tr → String → String →
    (String × String) × List LegRow
  | [], cup, stage => ((cup, stage), [])
  | tr :: trs, cup, stage =>
    let s1 := processTr year tr cup stage
    let rest := parseTableMatches year trs s1.1 s1.2.1
    (rest.1, s1.2.2 ++ rest.2)

/-- The per-year loop of `main` (source lines 281–283): the context starts empty
once per page and is threaded from table to table. -/
def processYearTables (year : Nat) : List (List Tr) → String → String →
    (String × String) × List LegRow
  | [], cup, stage => ((cup, stage), [])
  | t :: ts, cup, stage =>
    let s1 := parseTableMatches year t cup stage
    let rest := processYearTables year ts s1.1.1 s1.1.2
    (rest.1, s1.2 ++ rest.2)

/-- All candidate rows of one season page. -/
def parsePage (year : Nat) (tables : List (List Tr)) : List LegRow :=
  (processYearTables year tables "" "").2

/-- Modelled from the claim wording (not from the source): the walk of each table
starts afresh in the no-competition state, i.e. with empty competition and stage. -/
def specPerTableScopedRows (year : Nat) (tables : List (List Tr)) : List LegRow :=
  (tables.map (fun t => (parseTableMatches year t "" "").2)).flatten

/-- The accumulated candidate rows of a whole run, pages in year order
(`df` after the concat in `main`). -/
def pipelineRows (pages : List (Nat × List (List Tr))) : List LegRow :=
  (pages.map (fun p => parsePage p.1 p.2)).flatten

/-! ### Dimension builders (`main`, lines 296–329)

`pandas` dicts with pairwise-distinct keys are modelled as association lists
with first-match lookup; each map built below has distinct keys by
construction, so first-match and last-insert-wins agree. -/

/-- Index a list from `n`, as `zip` with a `range` starting at `n`. -/
def idxFrom (n : Nat) : List String → List (Nat × String)
  | [] => []
  | a :: as => (n, a) :: idxFrom (n + 1) as

/-- The source's `CUP_ID_FIXED`, in its insertion order. -/
def cupIdFixedList : List (String × Nat) :=
  [("CHAMPIONS LEAGUE", 1), ("EUROPA LEAGUE", 2), ("CONFERENCE LEAGUE", 3)]

/-- Python `c in CUP_ID_FIXED`. -/
def isFixedCup (c : String) : Bool := (cupIdFixedList.lookup c).isSome

/-- The distinct non-empty canonicalized competition names of the run
(`cups_unique`); only its underlying set matters downstream. -/
def cupsUnique (rows : List LegRow) : List String :=
  ((rows.map (fun r => normCupName r.cup)).dedup).filter (fun c => c ≠ "")

/-- The loop over `CUP_ID_FIXED.items()`: reserved rows for the fixed names
that are present. -/
def fixedCupRows (cups : List String) : List (Nat × String) :=
  cupIdFixedList.filterMap (fun p => if p.1 ∈ cups then some (p.2, p.1) else none)

/-- The ids marked used by the fixed loop. -/
def usedInit (cups : List String) : List Nat :=
  cupIdFixedList.filterMap (fun p => if p.1 ∈ cups then some p.2 else none)

/-- The source's `while next_id in used: next_id += 1`; the fuel
`used.length + 1` always suffices because `used` never holds duplicates. -/
def nextFreeAux (used : List Nat) : Nat → Nat → Nat
  | 0, n => n
  | fuel + 1, n => if n ∈ used then nextFreeAux used fuel (n + 1) else n

def nextFree (used : List Nat) (n : Nat) : Nat := nextFreeAux used (used.length + 1) n

/-- The dynamic-assignment loop over the alphabetically sorted remaining names. -/
def assignCupLoop : List String → List Nat → Nat → List (Nat × String)
  | [], _, _ => []
  | c :: cs, used, nid =>
    let i := nextFree used nid
    (i, c) :: assignCupLoop cs (i :: used) (i + 1)

/-- Python `sorted(c for c in cups_unique if c not in CUP_ID_FIXED)`. -/
def sortRemaining (cups : List String) : List String :=
  List.insertionSort (fun a b => pyLe a b = true) (cups.filter (fun c => !(isFixedCup c)))

/-- The competition dimension built from the distinct canonical names
(already in ascending `cup_id` order, as after the source's sort). -/
def dimCupsOf (cups : List String) : List (Nat × String) :=
  fixedCupRows cups ++ assignCupLoop (sortRemaining cups) (usedInit cups) 4

def dimCups (rows : List LegRow) : List (Nat × String) := dimCupsOf (cupsUnique rows)

/-- The source's `cup_map` as a lookup function. -/
def cupMapFn (rows : List LegRow) (name : String) : Option Nat :=
  ((dimCups rows).map (fun p => (p.2, p.1))).lookup name

/-- A stage-dimension row. -/
structure StageRow where
  stage_id : Nat
  comp_stage_kes : String
  importance : Nat
deriving DecidableEq

/-- The source's `PROVIDED_STAGE_MAPPING` (20 fixed entries). -/
def providedStageMapping : List StageRow :=
  [⟨1, "Final", 1⟩, ⟨2, "Semi Finals", 2⟩, ⟨3, "Quarter Finals", 3⟩,
   ⟨4, "2nd Group Stage", 4⟩, ⟨5, "Round 4", 4⟩, ⟨6, "Round of 16", 4⟩,
   ⟨7, "Knockout round play-offs", 5⟩, ⟨8, "Round 3", 6⟩,
   ⟨9, "1st Group Stage", 7⟩, ⟨10, "Group Stage", 7⟩, ⟨11, "League Stage", 7⟩,
   ⟨12, "Round 2", 8⟩, ⟨13, "Round 1", 9⟩,
   ⟨14, "4th Qualifying or Play-off Round", 10⟩,
   ⟨15, "Qualifying Play-off Round", 10⟩, ⟨16, "3rd Qualifying Round", 11⟩,
   ⟨17, "2nd Qualifying Round", 12⟩, ⟨18, "Qualifying Round", 12⟩,
   ⟨19, "1st Qualifying Round", 13⟩, ⟨20, "Preliminary Round", 14⟩]

/-- The seeded stage rows: the synthetic id-0 "Winner" entry plus the provided
mapping (the initial `dim_stages_rows`, in ascending id order). -/
def seededStages : List StageRow := ⟨0, "Winner", 0⟩ :: providedStageMapping

/-- The distinct non-empty stripped stage names of the run (`unique_stages`);
only its underlying set matters downstream. -/
def uniqueStages (rows : List LegRow) : List String :=
  ((rows.map (fun r => pyStrip r.comp_stage)).dedup).filter (fun s => s ≠ "")

/-- The source's append loop for unseen stages: walk the sorted unique names,
appending a row with the next fresh id and importance 0 whenever the normalized
key is not present yet. -/
def addStagesLoop : List String → List StageRow → Nat → List StageRow
  | [], acc, _ => acc
  | s :: ss, acc, nid =>
    if (acc.map (fun r => normKey r.comp_stage_kes)).contains (normKey s) then
      addStagesLoop ss acc nid
    else
      addStagesLoop ss (acc ++ [⟨nid, s, 0⟩]) (nid + 1)

/-- The stage dimension: seeded rows (ids 0–20) then appended unseen names with
ids from 21 (`max(dim_stages_rows.keys()) + 1`) upward; already in ascending id
order, matching the source's sort of the dict keys. -/
def dimStages (rows : List LegRow) : List StageRow :=
  addStagesLoop (List.insertionSort (fun a b => pyLe a b = true) (uniqueStages rows)) seededStages 21

/-- The source's `stage_map_norm` as a lookup function on normalized keys. -/
def stageMapFn (rows : List LegRow) (k : String) : Option Nat :=
  ((dimStages rows).map (fun r => (normKey r.comp_stage_kes, r.stage_id))).lookup k

/-- Stage resolution as the fact assembler performs it:
`stage_map_norm.get(_norm_key(x))`. -/
def resolveStage (rows : List LegRow) (s : String) : Option Nat :=
  stageMapFn rows (normKey s)

/-- The sorted distinct non-empty stripped club names (`clubs`). -/
def clubNames (rows : List LegRow) : List String :=
  List.insertionSort (fun a b => pyLe a b = true)
    (((rows.map (fun r => pyStrip r.home) ++ rows.map (fun r => pyStrip r.away)).dedup).filter
      (fun c => c ≠ ""))

/-- The source's `club_map` (`dict(zip(clubs, 1..N))`) as a lookup function. -/
def clubMapFn (rows : List LegRow) (name : String) : Option Nat :=
  ((idxFrom 1 (clubNames rows)).map (fun p => (p.2, p.1))).lookup name

/-! ### Fact assembler (`main`, lines 332–365) -/

/-- One final fact row. -/
structure FactRow where
  season_page : String
  leg_no : Nat
  cup_id : Option Nat
  comp_stage_id : Option Nat
  home_club_id : Option Nat
  away_club_id : Option Nat
  home_cc : String
  away_cc : String
  score : String
  goals_home : String
  goals_away : String
  winner : String
  two_leg_winner : Option Nat
deriving DecidableEq

/-- Numeric coercion `pd.to_numeric(..., errors="coerce")` restricted to the texts this pipeline
produces for goal counts: optional surrounding whitespace around a non-empty
digit string (the accumulated values are `""` or `str` of a non-negative int). -/
def toNumericNat (s : String) : Option Nat :=
  let t := stripChars s.data
  if !t.isEmpty && t.all Char.isDigit then some (natOfDigits t) else none

/-- Rendering of one picked winner id, as
`pd.Series(..., dtype="float").astype("Int64").astype(str)` renders a present
value.  The `none` branch can only be reached through a `pd.NA` picked by
`np.where`, and in that case the source never reaches the rendering: converting
the object array to float calls `float(pd.NA)`, which raises `TypeError` (see
`winnerBad`); successful assemblies never evaluate that branch. -/
def optIdStr : Option Nat → String
  | some n => toString n
  | none => "<NA>"

/-- The per-leg winner value of lines 345–357: empty when either goal count is
missing, `"draw"` on equal counts, else the rendered id of the side with the
strictly higher count. -/
def winnerStr (gh ga hid aid : Option Nat) : String :=
  match gh, ga with
  | some h, some a =>
    if h = a then "draw" else if a < h then optIdStr hid else optIdStr aid
  | _, _ => ""

/-- The condition under which the winner computation of lines 351–352 raises:
`np.where` picks the winning side's club id, `BaseMaskedArray.__array__` hands
`np.where` an object array carrying `pd.NA` for a missing id, and
`pd.Series(winner_id, dtype="float")` then calls `float(pd.NA)`, which raises
`TypeError`, aborting `main` before any fact row is produced. -/
def winnerBad (gh ga hid aid : Option Nat) : Bool :=
  match gh, ga with
  | some h, some a => (decide (a < h) && hid.isNone) || (decide (h < a) && aid.isNone)
  | _, _ => false

def rowBad (clubM : String → Option Nat) (r : LegRow) : Bool :=
  winnerBad (toNumericNat r.goals_home) (toNumericNat r.goals_away)
    (clubM (pyStrip r.home)) (clubM (pyStrip r.away))

/-- Assembly of one fact row from one candidate row and the three ID maps:
null references on failed lookups, per-leg winner, two-leg-winner id resolved
only on leg-1 rows (lines 332–362). -/
def mkFact (cupM stageM clubM : String → Option Nat) (r : LegRow) : FactRow :=
  { season_page := toString r.season_page
    leg_no := r.leg_no
    cup_id := cupM (pyStrip (normCupName r.cup))
    comp_stage_id := stageM (normKey r.comp_stage)
    home_club_id := clubM (pyStrip r.home)
    away_club_id := clubM (pyStrip r.away)
    home_cc := r.home_cc
    away_cc := r.away_cc
    score := r.score
    goals_home := r.goals_home
    goals_away := r.goals_away
    winner := winnerStr (toNumericNat r.goals_home) (toNumericNat r.goals_away)
      (clubM (pyStrip r.home)) (clubM (pyStrip r.away))
    two_leg_winner := if r.leg_no = 1 then clubM (pyStrip r.two_leg_winner) else none }

/-- The whole fact assembly: `none` models the `TypeError` described at
`winnerBad` (the run aborts, emitting nothing); otherwise one fact row per
candidate row, in order. -/
def assembleAll (rows : List LegRow) : Option (List FactRow) :=
  if rows.any (rowBad (clubMapFn rows)) then none
  else some (rows.map (mkFact (cupMapFn rows) (stageMapFn rows) (clubMapFn rows)))

/-- Fact rows of a whole run. -/
def pipelineFacts (pages : List (Nat × List (List Tr))) : Option (List FactRow) :=
  assembleAll (pipelineRows pages)

/-! ### Statement vocabulary for the claims -/

/-- The leg-2 score text the walker reads for a data row: the sixth cell in the
main (`>=6`-cell) branch; the `>=4`-cell fallback only ever runs with 4 or 5
cells, where its guarded sixth-cell access yields `""`. -/
def leg2TextOf (tds : List Cell) : String :=
  if 6 ≤ tds.length then normText (cellText tds 5) else ""

/-- Claim C1, the leg-swap property of one `>=6`-cell data row: the first emitted
row is the leg-1 row (home = team1, away = team2, leg-1 goals, verbatim score
text), and a leg-2 row follows exactly when the leg-2 text is non-empty, with
home/away swapped, reconstructed home goals = printed away figure and vice
versa, and the score rebuilt from the swapped numbers when both parse, else the
leg-2 text verbatim. -/
def LegSwapSpec (year : Nat) (cup stage : String) (tds : List Cell) : Prop :=
  ∃ r1 rest,
    (processTds year tds cup stage).2.2 = r1 :: rest ∧
    r1.leg_no = 1 ∧
    r1.home = normText (cellText tds 0) ∧
    r1.home_cc = normText (cellText tds 1) ∧
    r1.away = normText (cellText tds 2) ∧
    r1.away_cc = normText (cellText tds 3) ∧
    r1.score = normText (cellText tds 4) ∧
    (∀ a b, parseScore (normText (cellText tds 4)) = some (a, b) →
      r1.goals_home = toString a ∧ r1.goals_away = toString b) ∧
    (parseScore (normText (cellText tds 4)) = none →
      r1.goals_home = "" ∧ r1.goals_away = "") ∧
    (normText (cellText tds 5) = "" → rest = []) ∧
    (normText (cellText tds 5) ≠ "" → ∃ r2, rest = [r2] ∧ r2.leg_no = 2 ∧
      r2.home = normText (cellText tds 2) ∧ r2.home_cc = normText (cellText tds 3) ∧
      r2.away = normText (cellText tds 0) ∧ r2.away_cc = normText (cellText tds 1) ∧
      (∀ a b, parseScore (normText (cellText tds 5)) = some (a, b) →
        r2.goals_home = toString b ∧ r2.goals_away = toString a ∧
        r2.score = toString b ++ "-" ++ toString a) ∧
      (parseScore (normText (cellText tds 5)) = none →
        r2.goals_home = "" ∧ r2.goals_away = "" ∧ r2.score = normText (cellText tds 5)))

/-- Relation between a leg-1 row and the leg-2 row of the same source row:
home/away (and country codes) swapped, identical season/competition/stage. -/
def PairProps (r1 r2 : LegRow) : Prop :=
  r1.leg_no = 1 ∧ r1.home = r2.away ∧ r1.away = r2.home ∧
  r1.home_cc = r2.away_cc ∧ r1.away_cc = r2.home_cc ∧
  r1.season_page = r2.season_page ∧ r1.cup = r2.cup ∧ r1.comp_stage = r2.comp_stage

/-- Claim C3 (amended), over a full table walk: every emitted leg-2 row whose
source row had at least one non-empty team name is immediately preceded by the
leg-1 row of the same source row, with home/away (and country codes) swapped and
identical season/competition/stage tags. -/
def LegPairSpec (out : List LegRow) : Prop :=
  ∀ r2 ∈ out, r2.leg_no = 2 → (r2.home ≠ "" ∨ r2.away ≠ "") →
    ∃ r1 pre post, out = pre ++ r1 :: r2 :: post ∧ PairProps r1 r2

/-- The leg-2 row the walk of `[⟨none, exTds⟩]` emits. -/
def c3wRow2 : LegRow :=
  { season_page := 2001, cup := "", comp_stage := "", leg_no := 2, home := "B",
    home_cc := "bb", away := "A", away_cc := "aa", score := "3-0", goals_home := "3",
    goals_away := "0", winner := "", two_leg_winner := "" }

/-- A data row with six cells, both team names empty, and a non-empty leg-2
score text. -/
def c3cexTds : List Cell :=
  [⟨"", false, false⟩, ⟨"", false, false⟩, ⟨"", false, false⟩,
   ⟨"", false, false⟩, ⟨"", false, false⟩, ⟨"1-0", false, false⟩]

/-- Concrete `>=6`-cell data row used as witness input: teams A/B, legs
`"2-1"` and `"0-3"`. -/
def exTds : List Cell :=
  [⟨"A", false, false⟩, ⟨"aa", false, false⟩, ⟨"B", false, false⟩,
   ⟨"bb", false, false⟩, ⟨"2-1", false, false⟩, ⟨"0-3", false, false⟩]

/-- Concrete page with two tables: the first holds only a competition header,
the second holds only a data row. -/
def cexCupTr : Tr := ⟨some ⟨some "Cup X", none⟩, []⟩

def cexDataTr : Tr :=
  ⟨none, [⟨"A", false, false⟩, ⟨"aa", false, false⟩, ⟨"B", false, false⟩,
    ⟨"bb", false, false⟩, ⟨"2-1", false, false⟩, ⟨"", false, false⟩]⟩

def cexTables : List (List Tr) := [[cexCupTr], [cexDataTr]]

/-- Concrete distinct canonical competition names in scrambled discovery order. -/
def exCups : List String := ["EUROPA LEAGUE", "FA CUP", "CHAMPIONS LEAGUE", "AAA TROPHY"]

/-- Concrete candidate rows: a drawn leg and a decided leg, all names resolvable. -/
def exLegRows : List LegRow :=
  [{ season_page := 2001, cup := "CL", comp_stage := "Final", leg_no := 1, home := "A",
     home_cc := "aa", away := "B", away_cc := "bb", score := "2-2", goals_home := "2",
     goals_away := "2", winner := "", two_leg_winner := "" },
   { season_page := 2001, cup := "CL", comp_stage := "Final", leg_no := 2, home := "B",
     home_cc := "bb", away := "A", away_cc := "aa", score := "3-1", goals_home := "3",
     goals_away := "1", winner := "", two_leg_winner := "" }]

/-- A data row whose leg-1 score parses as 2–1 while the home team name is
empty: the leg-1 candidate row is emitted (team2 is non-empty) with an
unresolvable home club on the winning side. -/
def c9Tr : Tr :=
  ⟨none, [⟨"", false, false⟩, ⟨"", false, false⟩, ⟨"B", false, false⟩,
    ⟨"bb", false, false⟩, ⟨"2-1", false, false⟩, ⟨"", false, false⟩]⟩

/-- Default fact row used only to take the head of concrete fact lists. -/
def defFact : FactRow :=
  { season_page := "", leg_no := 0, cup_id := none, comp_stage_id := none,
    home_club_id := none, away_club_id := none, home_cc := "", away_cc := "",
    score := "", goals_home := "", goals_away := "", winner := "",
    two_leg_winner := none }

/-- A two-leg data row whose team-1 name carries the bold aggregate-winner
marker. -/
def c8Tr : Tr :=
  ⟨none, [⟨"A", true, false⟩, ⟨"aa", false, false⟩, ⟨"B", false, false⟩,
    ⟨"bb", false, false⟩, ⟨"2-1", false, false⟩, ⟨"0-3", false, false⟩]⟩

def c8Pages : List (Nat × List (List Tr)) := [(2001, [[c8Tr]])]

/-! ### Order properties of the Python string comparison -/

theorem charListLe_total : ∀ l m : List Char, charListLe l m = true ∨ charListLe m l = true := by
  intro l
  induction l with
  | nil => intro m; exact Or.inl rfl
  | cons a as ih =>
    intro m
    cases m with
    | nil => exact Or.inr rfl
    | cons b bs =>
      rcases Nat.lt_trichotomy a.toNat b.toNat with h | h | h
      · exact Or.inl (by simp [charListLe, h])
      · have h1 : ¬ a.toNat < b.toNat := by omega
        have h2 : ¬ b.toNat < a.toNat := by omega
        rcases ih bs with hh | hh
        · exact Or.inl (by simp [charListLe, h1, h2, hh])
        · exact Or.inr (by simp [charListLe, h1, h2, hh])
      · exact Or.inr (by simp [charListLe, h])

theorem charListLe_trans : ∀ l m k : List Char,
    charListLe l m = true → charListLe m k = true → charListLe l k = true := by
  intro l
  induction l with
  | nil => intro m k _ _; rfl
  | cons a as ih =>
    intro m k h1 h2
    cases m with
    | nil => simp [charListLe] at h1
    | cons b bs =>
      cases k with
      | nil => simp [charListLe] at h2
      | cons c cs =>
        rcases Nat.lt_trichotomy a.toNat b.toNat with hab | hab | hab <;>
          rcases Nat.lt_trichotomy b.toNat c.toNat with hbc | hbc | hbc <;>
          simp [charListLe, hab, hbc, Nat.lt_asymm, Nat.lt_irrefl] at h1 h2 ⊢ <;>
          first
            | omega
            | (exact ih bs cs h1 h2)

theorem charListLe_antisymm : ∀ l m : List Char,
    charListLe l m = true → charListLe m l = true → l = m := by
  intro l
  induction l with
  | nil =>
    intro m _ h2
    cases m with
    | nil => rfl
    | cons b bs => simp [charListLe] at h2
  | cons a as ih =>
    intro m h1 h2
    cases m with
    | nil => simp [charListLe] at h1
    | cons b bs =>
      rcases Nat.lt_trichotomy a.toNat b.toNat with h | h | h
      · simp [charListLe, h, Nat.lt_asymm h] at h2
      · have hab : a = b := Char.eq_of_val_eq (UInt32.ext h)
        have h1' : ¬ a.toNat < b.toNat := by omega
        have h2' : ¬ b.toNat < a.toNat := by omega
        simp [charListLe, h1', h2'] at h1 h2
        exact congrArg₂ List.cons hab (ih bs h1 h2)
      · simp [charListLe, h, Nat.lt_asymm h] at h1

instance : IsTotal String (fun a b => pyLe a b = true) :=
  ⟨fun a b => charListLe_total a.data b.data⟩

instance : IsTrans String (fun a b => pyLe a b = true) :=
  ⟨fun a b c => charListLe_trans a.data b.data c.data⟩

instance : IsAntisymm String (fun a b => pyLe a b = true) :=
  ⟨fun a b h1 h2 => by
    cases a with
    | mk da =>
      cases b with
      | mk db => exact congrArg String.mk (charListLe_antisymm da db h1 h2)⟩

/-! ### Idempotence of the strip -/

theorem dropWhile_decomp (p : Char → Bool) :
    ∀ l : List Char, ∃ pre, l = pre ++ l.dropWhile p := by
  intro l
  induction l with
  | nil => exact ⟨[], rfl⟩
  | cons a t ih =>
    by_cases h : p a
    · obtain ⟨pre, hp⟩ := ih
      refine ⟨a :: pre, ?_⟩
      simpa [List.dropWhile_cons, h] using congrArg (List.cons a) hp
    · exact ⟨[], by simp [List.dropWhile_cons, h]⟩

theorem dropWhile_head_false (p : Char → Bool) :
    ∀ l : List Char, l.dropWhile p = [] ∨ ∃ a t, l.dropWhile p = a :: t ∧ p a = false := by
  intro l
  induction l with
  | nil => exact Or.inl rfl
  | cons a t ih =>
    by_cases h : p a
    · simpa [List.dropWhile_cons, h] using ih
    · exact Or.inr ⟨a, t, by simp [List.dropWhile_cons, h], by simpa using h⟩

theorem dropWhile_of_head_false {p : Char → Bool} {a : Char} {t : List Char}
    (h : p a = false) : (a :: t).dropWhile p = a :: t := by
  simp [List.dropWhile_cons, h]

theorem stripChars_idem (l : List Char) : stripChars (stripChars l) = stripChars l := by
  rcases dropWhile_head_false Char.isWhitespace l with h1 | ⟨a, t1, h1, ha⟩
  · unfold stripChars
    rw [h1]
    rfl
  · rcases dropWhile_head_false Char.isWhitespace
        ((l.dropWhile Char.isWhitespace).reverse) with h2 | ⟨b, t2, h2, hb⟩
    · unfold stripChars
      rw [h2]
      rfl
    · have hstrip : stripChars l = (b :: t2).reverse := by
        unfold stripChars; rw [h2]
      obtain ⟨pre, hpre⟩ :=
        dropWhile_decomp Char.isWhitespace ((l.dropWhile Char.isWhitespace).reverse)
      have hl1 : l.dropWhile Char.isWhitespace = (b :: t2).reverse ++ pre.reverse := by
        have := congrArg List.reverse hpre
        simpa [h2, List.reverse_append] using this
      -- the head of `(b :: t2).reverse` is the head of `l.dropWhile`, hence not whitespace
      obtain ⟨c, u, hcu⟩ : ∃ c u, (b :: t2).reverse = c :: u := by
        rcases hrev : (b :: t2).reverse with _ | ⟨c, u⟩
        · exact absurd (congrArg List.length hrev) (by simp)
        · exact ⟨c, u, rfl⟩
      have hca : c = a := by
        rw [hcu] at hl1
        rw [hl1] at h1
        exact (by simpa using congrArg (fun l => l.headD 'x') h1.symm : a = c).symm
      have hdrop1 : ((b :: t2).reverse).dropWhile Char.isWhitespace = (b :: t2).reverse := by
        rw [hcu, dropWhile_of_head_false (hca ▸ ha)]
      rw [hstrip]
      unfold stripChars
      rw [hdrop1, List.reverse_reverse, dropWhile_of_head_false hb]

theorem pyStrip_idem (s : String) : pyStrip (pyStrip s) = pyStrip s :=
  congrArg String.mk (stripChars_idem s.data)

/-! ### Claim C7: canonicalization -/

theorem normCupCore_cases (t : String) :
    normCupCore t = "" ∨ normCupCore t = "EUROPA LEAGUE" ∨
    normCupCore t = "CHAMPIONS LEAGUE" ∨ normCupCore t = "CONFERENCE LEAGUE" ∨
    normCupCore t = t := by
  unfold normCupCore
  repeat' split
  all_goals tauto

/-- C7 counterexample: on the concrete input `"UEFA Europa League"` — one of the
claim's own examples — the source's canonicalization yields `"EUROPA LEAGUE"`
(through the `contains "EUROPA LEAGUE"` alias test), while the substring rules
exactly as the claim states them leave the name unchanged, so the claim's rule
list does not describe the code. -/
theorem C7_counterexample :
    normCupName "UEFA Europa League" = "EUROPA LEAGUE" ∧
    specCupRulesStated "UEFA Europa League" = "UEFA Europa League" ∧
    normCupName "UEFA Europa League" ≠ specCupRulesStated "UEFA Europa League" := by
  refine ⟨by decide, by decide, by decide⟩

/-- C7 (amended): competition-name canonicalization is idempotent, both
`"UEFA Cup"` and `"UEFA Europa League"` canonicalize to `"EUROPA LEAGUE"`, and
the canonicalization follows the amended substring rules (the claim's rules
extended with the `contains "EUROPA LEAGUE"` alias test, the unchanged branch
returning the stripped name). -/
theorem C7_canonicalization :
    (∀ s, normCupName (normCupName s) = normCupName s) ∧
    normCupName "UEFA Cup" = "EUROPA LEAGUE" ∧
    normCupName "UEFA Europa League" = "EUROPA LEAGUE" ∧
    (∀ s, normCupName s = specCupRulesAmended s) := by
  refine ⟨?_, by decide, by decide, ?_⟩
  · intro s
    show normCupCore (pyStrip (normCupCore (pyStrip s))) = normCupCore (pyStrip s)
    rcases normCupCore_cases (pyStrip s) with h | h | h | h | h <;> rw [h]
    · decide
    · decide
    · decide
    · decide
    · rw [pyStrip_idem]
      exact h
  · intro s
    show normCupCore (pyStrip s) = specCupRulesAmended s
    unfold normCupCore specCupRulesAmended
    by_cases h0 : pyStrip s = ""
    · rw [h0]
      decide
    · simp only [h0, if_false]
      by_cases hequ : pyUpper (pyStrip s) == "UEFA CUP"
      · have hu : pyUpper (pyStrip s) = "UEFA CUP" := by
          simpa using hequ
        rw [hu]
        have c1 : (pyContains "UEFA CUP" "UEFA CUP" || ("UEFA CUP" : String) == "UEFA CUP") =
            true := by decide
        have c2 : pyContains "UEFA CUP" "UEFA CUP" = true := by decide
        rw [c1, c2]
      · have hb : (pyUpper (pyStrip s) == "UEFA CUP") = false := by
          simpa using hequ
        rw [hb, Bool.or_false]

/-! ### Unfolding lemmas for the table walk -/

theorem processTds_six (year : Nat) (cup stage : String) (tds : List Cell)
    (h6 : 6 ≤ tds.length) :
    processTds year tds cup stage = (cup, stage, dataRows year cup stage
      (normText (cellText tds 0)) (normText (cellText tds 1)) (normText (cellText tds 2))
      (normText (cellText tds 3)) (normText (cellText tds 4)) (normText (cellText tds 5))
      (boldOf tds 0) (boldOf tds 2)) := by
  have hne : tds.isEmpty = false := by
    cases tds with
    | nil => simp at h6
    | cons a t => rfl
  have hlen : (tds.length == 1) = false := by
    have h : tds.length ≠ 1 := by omega
    simpa using h
  unfold processTds
  rw [hne, hlen]
  simp [h6]

theorem processTds_small (year : Nat) (cup stage : String) (tds : List Cell)
    (h : tds.length < 4) :
    processTds year tds cup stage = (cup, stage, []) := by
  have h6 : ¬ 6 ≤ tds.length := by omega
  have h4 : ¬ 4 ≤ tds.length := by omega
  unfold processTds
  by_cases he : tds.isEmpty
  · rw [if_pos he]
  · rw [if_neg he]
    by_cases hc : (tds.length == 1 && (tds.getD 0 defCell).colspan) = true
    · rw [if_pos hc]
    · rw [if_neg hc, if_neg h6, if_neg h4]

/-! ### Claim C1: leg swap -/

/-- C1: for every `>=6`-cell data row with at least one non-empty team name, the
walker first emits the leg-1 row (home = team1, away = team2, leg-1 goals, score
verbatim), and exactly when the leg-2 text is non-empty a leg-2 row follows with
home/away swapped, home goals = printed away figure and vice versa, and the
score rebuilt from the swapped numbers when both parse, else kept verbatim
(e.g. legs `"2-1"`/`"0-3"` give rows scored `"2-1"` and `"3-0"`). -/
theorem C1_leg_swap (year : Nat) (cup stage : String) (tds : List Cell)
    (h6 : 6 ≤ tds.length)
    (hteam : normText (cellText tds 0) ≠ "" ∨ normText (cellText tds 2) ≠ "") :
    LegSwapSpec year cup stage tds := by
  unfold LegSwapSpec
  rw [processTds_six year cup stage tds h6]
  simp only [dataRows]
  rw [if_pos hteam]
  by_cases hl2 : normText (cellText tds 5) = ""
  · rw [hl2]
    have hno : ¬(("" : String) ≠ "") := fun h => h rfl
    rw [if_neg hno, if_neg hno, List.append_nil]
    refine ⟨_, _, rfl, rfl, rfl, rfl, rfl, rfl, rfl, ?_, ?_, fun _ => rfl, fun h => absurd rfl h⟩
    · intro a b hp
      simp [hp]
    · intro hp
      simp [hp]
  · have hyes : normText (cellText tds 5) ≠ "" := hl2
    rw [if_pos hyes, if_pos hyes, List.singleton_append]
    refine ⟨_, _, rfl, rfl, rfl, rfl, rfl, rfl, rfl, ?_, ?_, fun h => absurd h hl2, ?_⟩
    · intro a b hp
      simp [hp]
    · intro hp
      simp [hp]
    · intro _
      refine ⟨_, rfl, rfl, rfl, rfl, rfl, rfl, ?_, ?_⟩
      · intro a b hp
        simp [hp]
      · intro hp
        simp [hp]

/-- C1 witness at the claim's own example row. -/
theorem C1_witness : 6 ≤ exTds.length ∧ LegSwapSpec 2001 "UEFA CUP" "Final" exTds :=
  ⟨by decide, C1_leg_swap 2001 "UEFA CUP" "Final" exTds (by decide) (Or.inl (by decide))⟩

/-! ### Claim C10: rows with 1–3 cells -/

/-- C10: a non-header row with between 1 and 3 cells emits no candidate row and
leaves the walk unchanged (same context, same continuation), and only rows with
at least 4 cells can emit candidate rows. -/
theorem C10_small_rows (year : Nat) (cup stage : String) (tr : Tr) (trs : List Tr)
    (hh : tr.th = none ∨ ∃ ti, tr.th = some ti ∧ ti.cupDiv = none ∧ ti.roundDiv = none)
    (h1 : 1 ≤ tr.tds.length) (h3 : tr.tds.length ≤ 3) :
    parseTableMatches year (tr :: trs) cup stage = parseTableMatches year trs cup stage ∧
    (∀ t2 : Tr, ∀ c s : String, (processTr year t2 c s).2.2 ≠ [] → 4 ≤ t2.tds.length) := by
  constructor
  · have hp : processTr year tr cup stage = (cup, stage, []) := by
      rcases hh with h | ⟨ti, hti, hcup, hround⟩
      · simp only [processTr, h]
        exact processTds_small year cup stage tr.tds (by omega)
      · simp only [processTr, hti, hcup, hround]
        exact processTds_small year cup stage tr.tds (by omega)
    show (let s1 := processTr year tr cup stage
          let rest := parseTableMatches year trs s1.1 s1.2.1
          ((rest.1, s1.2.2 ++ rest.2) : (String × String) × List LegRow)) = _
    rw [hp]
    simp
  · intro t2 c s hne
    by_contra hlt
    have hsmall := processTds_small year c s t2.tds (by omega)
    rcases ht : t2.th with _ | ti
    · simp only [processTr, ht, hsmall] at hne
      exact hne rfl
    · rcases hc : ti.cupDiv with _ | cv
      · rcases hr : ti.roundDiv with _ | rv
        · simp only [processTr, ht, hc, hr, hsmall] at hne
          exact hne rfl
        · simp only [processTr, ht, hc, hr] at hne
          exact hne rfl
      · simp only [processTr, ht, hc] at hne
        exact hne rfl

/-- C10 witness: a concrete two-cell non-header row. -/
theorem C10_witness :
    parseTableMatches 2000 [⟨none, [⟨"x", false, false⟩, ⟨"y", false, false⟩]⟩] "c" "s" =
      parseTableMatches 2000 [] "c" "s" ∧
    (∀ t2 : Tr, ∀ c s : String, (processTr 2000 t2 c s).2.2 ≠ [] → 4 ≤ t2.tds.length) :=
  C10_small_rows 2000 "c" "s" ⟨none, [⟨"x", false, false⟩, ⟨"y", false, false⟩]⟩ []
    (Or.inl rfl) (by decide) (by decide)

/-! ### Claim C4: context scoping -/

theorem parseTableMatches_append (year : Nat) (l1 l2 : List Tr) :
    ∀ cup stage : String,
    parseTableMatches year (l1 ++ l2) cup stage =
      ((parseTableMatches year l2 (parseTableMatches year l1 cup stage).1.1
          (parseTableMatches year l1 cup stage).1.2).1,
        (parseTableMatches year l1 cup stage).2 ++
          (parseTableMatches year l2 (parseTableMatches year l1 cup stage).1.1
            (parseTableMatches year l1 cup stage).1.2).2) := by
  induction l1 with
  | nil => intro cup stage; simp [parseTableMatches]
  | cons tr trs ih =>
    intro cup stage
    simp only [List.cons_append, parseTableMatches, List.append_eq]
    rw [ih]
    simp [List.append_assoc]

theorem processYearTables_eq_flatten (year : Nat) :
    ∀ (tables : List (List Tr)) (cup stage : String),
    processYearTables year tables cup stage =
      parseTableMatches year tables.flatten cup stage := by
  intro tables
  induction tables with
  | nil => intro cup stage; simp [processYearTables, parseTableMatches]
  | cons t ts ih =>
    intro cup stage
    simp only [processYearTables, List.flatten_cons]
    rw [parseTableMatches_append, ih]

/-- C4 counterexample: on a concrete page whose first table sets competition
`"Cup X"` and whose second table has no competition header, the data row of the
second table is emitted with competition `"Cup X"`, whereas under the claimed
per-table scoping (each table's walk starting in the no-competition state,
`specPerTableScopedRows`) it would carry the empty competition — so the
CompetitionContext is not scoped per table. -/
theorem C4_counterexample :
    ((parsePage 2000 cexTables).map (fun r => r.cup)) = ["Cup X"] ∧
    ((specPerTableScopedRows 2000 cexTables).map (fun r => r.cup)) = [""] ∧
    parsePage 2000 cexTables ≠ specPerTableScopedRows 2000 cexTables := by
  refine ⟨by decide, by decide, by decide⟩

/-- C4 (amended): the CompetitionContext is scoped per page — initialized empty
once per page and threaded across that page's tables, so that walking the
tables one after another equals walking the concatenation of their rows — and a
competition-header row sets the competition and clears the stage, while a
stage-header row sets the stage leaving the competition unchanged. -/
theorem C4_context_scoping :
    (∀ (year : Nat) (cup stage txt : String) (rd : Option String) (tds : List Cell),
      processTr year ⟨some ⟨some txt, rd⟩, tds⟩ cup stage = (normText txt, "", [])) ∧
    (∀ (year : Nat) (cup stage txt : String) (tds : List Cell),
      processTr year ⟨some ⟨none, some txt⟩, tds⟩ cup stage = (cup, normText txt, [])) ∧
    (∀ (year : Nat) (tables : List (List Tr)) (cup stage : String),
      processYearTables year tables cup stage =
        parseTableMatches year tables.flatten cup stage) ∧
    (∀ (year : Nat) (tables : List (List Tr)),
      parsePage year tables = (parseTableMatches year tables.flatten "" "").2) := by
  refine ⟨fun _ _ _ _ _ _ => rfl, fun _ _ _ _ _ => rfl, ?_, ?_⟩
  · intro year tables cup stage
    exact processYearTables_eq_flatten year tables cup stage
  · intro year tables
    unfold parsePage
    rw [processYearTables_eq_flatten]

/-- C4 witness: the header transitions evaluated at a concrete header row. -/
theorem C4_witness :
    processTr 2000 ⟨some ⟨some " Cup X ", none⟩, []⟩ "prev" "oldstage" =
      (normText " Cup X ", "", []) :=
  C4_context_scoping.1 2000 "prev" "oldstage" " Cup X " none []

/-! ### Claim C3: leg-2 rows and their leg-1 counterparts -/

theorem dataRows_shape (year : Nat) (cup stage : String)
    (t1 cc1 t2 cc2 lg1 lg2 : String) (b1 b2 : Bool) :
    ∃ a1 a2 : LegRow,
      a1.leg_no = 1 ∧ a1.home = t1 ∧ a1.away = t2 ∧ a1.home_cc = cc1 ∧ a1.away_cc = cc2 ∧
      a1.season_page = year ∧ a1.cup = cup ∧ a1.comp_stage = stage ∧
      a2.leg_no = 2 ∧ a2.home = t2 ∧ a2.away = t1 ∧ a2.home_cc = cc2 ∧ a2.away_cc = cc1 ∧
      a2.season_page = year ∧ a2.cup = cup ∧ a2.comp_stage = stage ∧
      a1.two_leg_winner = (if lg2 ≠ "" then
        (if b1 && !b2 then t1 else if b2 && !b1 then t2 else "") else "") ∧
      a2.two_leg_winner = "" ∧
      dataRows year cup stage t1 cc1 t2 cc2 lg1 lg2 b1 b2 =
        (if t1 ≠ "" ∨ t2 ≠ "" then [a1] else []) ++ (if lg2 ≠ "" then [a2] else []) :=
  ⟨_, _, rfl, rfl, rfl, rfl, rfl, rfl, rfl, rfl, rfl, rfl, rfl, rfl, rfl, rfl, rfl, rfl, rfl,
    rfl, rfl⟩

theorem legPair_nil : LegPairSpec [] := by
  intro r2 hmem
  simp at hmem

theorem dataRows_pair (year : Nat) (cup stage : String)
    (t1 cc1 t2 cc2 lg1 lg2 : String) (b1 b2 : Bool) :
    LegPairSpec (dataRows year cup stage t1 cc1 t2 cc2 lg1 lg2 b1 b2) := by
  obtain ⟨a1, a2, p1, p2, p3, p4, p5, p6, p7, p8, q1, q2, q3, q4, q5, q6, q7, q8, -, -, heq⟩ :=
    dataRows_shape year cup stage t1 cc1 t2 cc2 lg1 lg2 b1 b2
  intro r2 hmem h2 hne
  rw [heq] at hmem ⊢
  by_cases ht : t1 ≠ "" ∨ t2 ≠ ""
  · by_cases hl : lg2 ≠ ""
    · rw [if_pos ht, if_pos hl] at hmem ⊢
      simp only [List.singleton_append, List.mem_cons, List.mem_singleton,
        List.not_mem_nil, or_false] at hmem
      rcases hmem with h | h
      · rw [h] at h2
        rw [p1] at h2
        cases h2
      · refine ⟨a1, [], [], ?_, p1, ?_, ?_, ?_, ?_, ?_, ?_, ?_⟩ <;> rw [h]
        · simp
        · rw [p2, q3]
        · rw [p3, q2]
        · rw [p4, q5]
        · rw [p5, q4]
        · rw [p6, q6]
        · rw [p7, q7]
        · rw [p8, q8]
    · rw [if_pos ht, if_neg hl] at hmem
      simp only [List.append_nil, List.mem_singleton] at hmem
      rw [hmem, p1] at h2
      cases h2
  · by_cases hl : lg2 ≠ ""
    · rw [if_neg ht, if_pos hl] at hmem
      simp only [List.nil_append, List.mem_singleton] at hmem
      push_neg at ht
      rw [hmem] at hne
      rcases hne with h | h
      · rw [q2] at h
        exact absurd ht.2 h
      · rw [q3] at h
        exact absurd ht.1 h
    · rw [if_neg ht, if_neg hl] at hmem
      simp at hmem

theorem legPair_append (xs ys : List LegRow) (hx : LegPairSpec xs) (hy : LegPairSpec ys) :
    LegPairSpec (xs ++ ys) := by
  intro r2 hmem h2 hne
  rcases List.mem_append.mp hmem with h | h
  · obtain ⟨r1, pre, post, heq, hp⟩ := hx r2 h h2 hne
    exact ⟨r1, pre, post ++ ys, by rw [heq]; simp, hp⟩
  · obtain ⟨r1, pre, post, heq, hp⟩ := hy r2 h h2 hne
    exact ⟨r1, xs ++ pre, post, by rw [heq]; simp, hp⟩

theorem processTds_pair (year : Nat) (tds : List Cell) (cup stage : String) :
    LegPairSpec (processTds year tds cup stage).2.2 := by
  unfold processTds
  repeat' split
  all_goals first
    | exact legPair_nil
    | exact dataRows_pair year cup stage _ _ _ _ _ _ _ _

theorem processTr_pair (year : Nat) (tr : Tr) (cup stage : String) :
    LegPairSpec (processTr year tr cup stage).2.2 := by
  unfold processTr
  repeat' split
  · exact legPair_nil
  · exact legPair_nil
  · exact processTds_pair year tr.tds cup stage
  · exact processTds_pair year tr.tds cup stage

/-- C3 counterexample: a six-cell data row with both team names empty and leg-2
text `"1-0"` makes the walker emit a leg-2 row and no leg-1 row at all, so a
leg-2 LegFact does not always have a corresponding leg-1 LegFact. -/
theorem C3_counterexample :
    (∃ r ∈ (parseTableMatches 2000 [⟨none, c3cexTds⟩] "" "").2, r.leg_no = 2) ∧
    (∀ r ∈ (parseTableMatches 2000 [⟨none, c3cexTds⟩] "" "").2, r.leg_no ≠ 1) := by
  decide

/-- C3 (amended): in the output of any table walk, every leg-2 row whose source
row had at least one non-empty team name is immediately preceded by the leg-1
row of the same source row, with home/away and country codes swapped and the
same season/competition/stage; a row with both team names empty can produce a
leg-2 row without a leg-1 row. -/
theorem C3_leg_pairing (year : Nat) (trs : List Tr) :
    ∀ cup stage : String, LegPairSpec (parseTableMatches year trs cup stage).2 := by
  induction trs with
  | nil => intro cup stage; exact legPair_nil
  | cons tr rest ih =>
    intro cup stage
    simp only [parseTableMatches]
    exact legPair_append _ _ (processTr_pair year tr cup stage) (ih _ _)

/-- C3 witness: the pairing applied to the concrete leg-2 row emitted for the
example data row. -/
theorem C3_witness :
    ∃ r1 pre post, (parseTableMatches 2001 [⟨none, exTds⟩] "" "").2 =
      pre ++ r1 :: c3wRow2 :: post ∧ PairProps r1 c3wRow2 :=
  C3_leg_pairing 2001 [⟨none, exTds⟩] "" "" c3wRow2 (by decide) (by decide)
    (Or.inl (by decide))

/-! ### Claim C5: competition ID assignment -/

theorem nextFree_of_lt (used : List Nat) (n : Nat) (h : ∀ u ∈ used, u < n) :
    nextFree used n = n := by
  have hmem : n ∉ used := fun hm => Nat.lt_irrefl n (h n hm)
  show nextFreeAux used (used.length + 1) n = n
  rw [nextFreeAux, if_neg hmem]

theorem assignCupLoop_eq_idxFrom :
    ∀ (cs : List String) (used : List Nat) (nid : Nat),
    (∀ u ∈ used, u < nid) → assignCupLoop cs used nid = idxFrom nid cs := by
  intro cs
  induction cs with
  | nil => intro used nid _; rfl
  | cons c cs ih =>
    intro used nid h
    show (nextFree used nid, c) :: assignCupLoop cs (nextFree used nid :: used)
        (nextFree used nid + 1) = (nid, c) :: idxFrom (nid + 1) cs
    rw [nextFree_of_lt used nid h]
    congr 1
    refine ih (nid :: used) (nid + 1) ?_
    intro u hu
    rcases List.mem_cons.mp hu with h1 | h1
    · omega
    · exact Nat.lt_succ_of_lt (h u h1)

theorem usedInit_lt (cups : List String) : ∀ u ∈ usedInit cups, u < 4 := by
  intro u hu
  simp only [usedInit, cupIdFixedList, List.filterMap] at hu
  split_ifs at hu <;> simp_all <;> omega

/-- C5: the reserved names present in the candidate set receive ids 1/2/3; the
assignment is invariant under permutation of the discovery order; and all the
other distinct canonical names receive, in ascending alphabetic order, the
consecutive ids 4, 5, 6, … (`idxFrom 4` of the sorted remaining names — the
next free integers ≥ 4, never colliding with the reserved ids). -/
theorem C5_cup_ids (cups : List String) :
    (∀ p ∈ cupIdFixedList, p.1 ∈ cups → (p.2, p.1) ∈ dimCupsOf cups) ∧
    (∀ cups2 : List String, cups.Perm cups2 → dimCupsOf cups = dimCupsOf cups2) ∧
    dimCupsOf cups = fixedCupRows cups ++ idxFrom 4 (sortRemaining cups) ∧
    List.Sorted (fun a b => pyLe a b = true) (sortRemaining cups) ∧
    (sortRemaining cups).Perm (cups.filter (fun c => !(isFixedCup c))) := by
  refine ⟨?_, ?_, ?_, ?_, ?_⟩
  · intro p hp hmem
    refine List.mem_append_left _ ?_
    exact List.mem_filterMap.mpr ⟨p, hp, by rw [if_pos hmem]⟩
  · intro cups2 h
    have hmem : ∀ a : String, (a ∈ cups) = (a ∈ cups2) := fun a => propext h.mem_iff
    have hfix : fixedCupRows cups = fixedCupRows cups2 := by
      unfold fixedCupRows
      simp only [hmem]
    have hused : usedInit cups = usedInit cups2 := by
      unfold usedInit
      simp only [hmem]
    have hsort : sortRemaining cups = sortRemaining cups2 := by
      refine List.eq_of_perm_of_sorted ?_ (List.sorted_insertionSort _ _)
        (List.sorted_insertionSort _ _)
      exact ((List.perm_insertionSort _ _).trans (h.filter _)).trans
        (List.perm_insertionSort _ _).symm
    unfold dimCupsOf
    rw [hfix, hused, hsort]
  · unfold dimCupsOf
    congr 1
    exact assignCupLoop_eq_idxFrom (sortRemaining cups) (usedInit cups) 4 (usedInit_lt cups)
  · exact List.sorted_insertionSort _ _
  · exact List.perm_insertionSort _ _

/-- C5 witness: reserved ids at a concrete scrambled candidate set. -/
theorem C5_witness :
    ((1 : Nat), "CHAMPIONS LEAGUE") ∈ dimCupsOf exCups ∧
    ((2 : Nat), "EUROPA LEAGUE") ∈ dimCupsOf exCups :=
  ⟨(C5_cup_ids exCups).1 ("CHAMPIONS LEAGUE", 1) (by decide) (by decide),
   (C5_cup_ids exCups).1 ("EUROPA LEAGUE", 2) (by decide) (by decide)⟩

/-! ### Claim C6: stage resolution -/

theorem lookup_mem {l : List (String × Nat)} {k : String} {v : Nat}
    (h : l.lookup k = some v) : (k, v) ∈ l := by
  obtain ⟨l1, l2, heq, -⟩ := List.lookup_eq_some_iff.mp h
  rw [heq]
  exact List.mem_append_right _ (List.mem_cons_self _ _)

theorem addStagesLoop_acc : ∀ (ss : List String) (acc : List StageRow) (nid : Nat),
    ∃ ext, addStagesLoop ss acc nid = acc ++ ext := by
  intro ss
  induction ss with
  | nil => intro acc nid; exact ⟨[], by simp [addStagesLoop]⟩
  | cons s ss ih =>
    intro acc nid
    unfold addStagesLoop
    by_cases h : ((acc.map fun r => normKey r.comp_stage_kes).contains (normKey s)) = true
    · rw [if_pos h]
      exact ih acc nid
    · rw [if_neg h]
      obtain ⟨ext, hext⟩ := ih (acc ++ [⟨nid, s, 0⟩]) (nid + 1)
      refine ⟨⟨nid, s, 0⟩ :: ext, ?_⟩
      rw [hext, List.append_assoc]
      rfl

theorem addStagesLoop_mem_ids : ∀ (ss : List String) (acc : List StageRow) (nid : Nat),
    ∀ r ∈ addStagesLoop ss acc nid, r ∈ acc ∨ nid ≤ r.stage_id := by
  intro ss
  induction ss with
  | nil => intro acc nid r hr; exact Or.inl hr
  | cons s ss ih =>
    intro acc nid r hr
    unfold addStagesLoop at hr
    by_cases h : ((acc.map fun r => normKey r.comp_stage_kes).contains (normKey s)) = true
    · rw [if_pos h] at hr
      exact ih acc nid r hr
    · rw [if_neg h] at hr
      rcases ih _ _ r hr with hin | hge
      · rcases List.mem_append.mp hin with h1 | h1
        · exact Or.inl h1
        · simp only [List.mem_singleton] at h1
          subst h1
          exact Or.inr (Nat.le_refl _)
      · exact Or.inr (by omega)

theorem addStagesLoop_covers : ∀ (ss : List String) (acc : List StageRow) (nid : Nat)
    (s : String), s ∈ ss →
    (∃ r ∈ acc, normKey r.comp_stage_kes = normKey s) ∨
    (∃ r ∈ addStagesLoop ss acc nid, normKey r.comp_stage_kes = normKey s ∧
      r.importance = 0 ∧ nid ≤ r.stage_id) := by
  intro ss
  induction ss with
  | nil => intro acc nid s hs; cases hs
  | cons t ts ih =>
    intro acc nid s hs
    unfold addStagesLoop
    by_cases h : ((acc.map fun r => normKey r.comp_stage_kes).contains (normKey t)) = true
    · rw [if_pos h]
      rcases List.mem_cons.mp hs with h1 | h1
      · subst h1
        left
        obtain ⟨k, hk, hbeq⟩ := List.contains_iff_exists_mem_beq.mp h
        obtain ⟨r, hr, hrk⟩ := List.mem_map.mp hk
        exact ⟨r, hr, by rw [hrk]; exact (eq_of_beq hbeq).symm⟩
      · exact ih acc nid s h1
    · rw [if_neg h]
      rcases List.mem_cons.mp hs with h1 | h1
      · subst h1
        right
        obtain ⟨ext, hext⟩ := addStagesLoop_acc ts (acc ++ [⟨nid, s, 0⟩]) (nid + 1)
        refine ⟨⟨nid, s, 0⟩, ?_, rfl, rfl, Nat.le_refl _⟩
        rw [hext]
        exact List.mem_append_left _ (List.mem_append_right _ (by simp))
      · rcases ih (acc ++ [⟨nid, t, 0⟩]) (nid + 1) s h1 with ⟨r, hr, hk⟩ | ⟨r, hr, hk, himp, hge⟩
        · rcases List.mem_append.mp hr with h2 | h2
          · exact Or.inl ⟨r, h2, hk⟩
          · simp only [List.mem_singleton] at h2
            subst h2
            right
            obtain ⟨ext, hext⟩ := addStagesLoop_acc ts (acc ++ [⟨nid, t, 0⟩]) (nid + 1)
            refine ⟨⟨nid, t, 0⟩, ?_, hk, rfl, Nat.le_refl _⟩
            rw [hext]
            exact List.mem_append_left _ (List.mem_append_right _ (by simp))
        · exact Or.inr ⟨r, hr, hk, himp, by omega⟩

theorem addStagesLoop_nodup_ids : ∀ (ss : List String) (acc : List StageRow) (nid : Nat),
    (acc.map (fun r => r.stage_id)).Nodup → (∀ r ∈ acc, r.stage_id < nid) →
    ((addStagesLoop ss acc nid).map (fun r => r.stage_id)).Nodup := by
  intro ss
  induction ss with
  | nil => intro acc nid hnd _; exact hnd
  | cons s ss ih =>
    intro acc nid hnd hlt
    unfold addStagesLoop
    by_cases h : ((acc.map fun r => normKey r.comp_stage_kes).contains (normKey s)) = true
    · rw [if_pos h]
      exact ih acc nid hnd hlt
    · rw [if_neg h]
      refine ih (acc ++ [⟨nid, s, 0⟩]) (nid + 1) ?_ ?_
      · rw [List.map_append]
        rw [List.nodup_append]
        refine ⟨hnd, by simp, ?_⟩
        intro x hx
        simp only [List.map_cons, List.map_nil, List.mem_singleton]
        obtain ⟨r, hr, hrx⟩ := List.mem_map.mp hx
        have := hlt r hr
        omega
      · intro r hr
        rcases List.mem_append.mp hr with h1 | h1
        · exact Nat.lt_succ_of_lt (hlt r h1)
        · simp only [List.mem_singleton] at h1
          subst h1
          exact Nat.lt_succ_self _

/-- C6: stage resolution is exact matching after whitespace normalization and
case folding, never substring matching: the seeded row `(3, "Quarter Finals", 3)`
is always in the dimension and `"quarter finals"` resolves to stage id 3; a name
resolves to the id of a seeded entry exactly when its normalized key equals that
entry's normalized key, and a resolved id ≤ 20 always belongs to a seeded entry
with an equal normalized key; every distinct stage name matching no seeded entry
is appended with importance 0 and a fresh id ≥ 21 (beyond the seeded maximum
20), all assigned stage ids being pairwise distinct. -/
theorem C6_stage_resolution :
    (∀ rows : List LegRow, (⟨3, "Quarter Finals", 3⟩ : StageRow) ∈ dimStages rows ∧
      resolveStage rows "quarter finals" = some 3) ∧
    (∀ (rows : List LegRow) (s : String), ∀ e ∈ seededStages,
      normKey s = normKey e.comp_stage_kes → resolveStage rows s = some e.stage_id) ∧
    (∀ (rows : List LegRow) (s : String) (i : Nat), resolveStage rows s = some i → i ≤ 20 →
      ∃ e ∈ seededStages, e.stage_id = i ∧ normKey s = normKey e.comp_stage_kes) ∧
    (∀ (rows : List LegRow) (s : String), s ∈ uniqueStages rows →
      (∀ e ∈ seededStages, normKey s ≠ normKey e.comp_stage_kes) →
      ∃ r ∈ dimStages rows, normKey r.comp_stage_kes = normKey s ∧ r.importance = 0 ∧
        21 ≤ r.stage_id) ∧
    (∀ rows : List LegRow, ((dimStages rows).map (fun r => r.stage_id)).Nodup) := by
  have hseed : ∀ e ∈ seededStages,
      ((seededStages.map fun r => (normKey r.comp_stage_kes, r.stage_id)).lookup
        (normKey e.comp_stage_kes)) = some e.stage_id := by decide
  refine ⟨?_, ?_, ?_, ?_, ?_⟩
  · intro rows
    obtain ⟨ext, hext⟩ := addStagesLoop_acc
      (List.insertionSort (fun a b => pyLe a b = true) (uniqueStages rows)) seededStages 21
    constructor
    · show (⟨3, "Quarter Finals", 3⟩ : StageRow) ∈ addStagesLoop _ seededStages 21
      rw [hext]
      exact List.mem_append_left _ (by decide)
    · show ((addStagesLoop _ seededStages 21).map
        (fun r => (normKey r.comp_stage_kes, r.stage_id))).lookup (normKey "quarter finals") = _
      rw [hext, List.map_append, List.lookup_append]
      have h3 : ((seededStages.map fun r => (normKey r.comp_stage_kes, r.stage_id)).lookup
          (normKey "quarter finals")) = some 3 := by decide
      rw [h3]
      rfl
  · intro rows s e he hk
    obtain ⟨ext, hext⟩ := addStagesLoop_acc
      (List.insertionSort (fun a b => pyLe a b = true) (uniqueStages rows)) seededStages 21
    show ((addStagesLoop _ seededStages 21).map
      (fun r => (normKey r.comp_stage_kes, r.stage_id))).lookup (normKey s) = _
    rw [hext, List.map_append, List.lookup_append, hk, hseed e he]
    rfl
  · intro rows s i hres hle
    obtain ⟨ext, hext⟩ := addStagesLoop_acc
      (List.insertionSort (fun a b => pyLe a b = true) (uniqueStages rows)) seededStages 21
    have hres' : ((seededStages.map fun r => (normKey r.comp_stage_kes, r.stage_id)) ++
        ext.map (fun r => (normKey r.comp_stage_kes, r.stage_id))).lookup (normKey s) =
        some i := by
      rw [← List.map_append, ← hext]
      exact hres
    rw [List.lookup_append] at hres'
    cases hl : ((seededStages.map fun r => (normKey r.comp_stage_kes, r.stage_id)).lookup
        (normKey s)) with
    | some v =>
      rw [hl] at hres'
      have hvi : v = i := by simpa using hres'
      subst hvi
      obtain ⟨e, he, hek⟩ := List.mem_map.mp (lookup_mem hl)
      refine ⟨e, he, ?_, ?_⟩
      · exact congrArg Prod.snd hek
      · exact (congrArg Prod.fst hek).symm
    | none =>
      rw [hl] at hres'
      have hres2 : (ext.map (fun r => (normKey r.comp_stage_kes, r.stage_id))).lookup
          (normKey s) = some i := by simpa using hres'
      obtain ⟨r, hr, hrk⟩ := List.mem_map.mp (lookup_mem hres2)
      have hrdim : r ∈ addStagesLoop
          (List.insertionSort (fun a b => pyLe a b = true) (uniqueStages rows))
          seededStages 21 := by
        rw [hext]
        exact List.mem_append_right _ hr
      rcases addStagesLoop_mem_ids _ _ _ r hrdim with hseeded | hge
      · refine ⟨r, hseeded, ?_, ?_⟩
        · exact congrArg Prod.snd hrk
        · exact (congrArg Prod.fst hrk).symm
      · have : r.stage_id = i := congrArg Prod.snd hrk
        omega
  · intro rows s hs hnone
    have hs' : s ∈ List.insertionSort (fun a b => pyLe a b = true) (uniqueStages rows) :=
      (List.perm_insertionSort _ _).mem_iff.mpr hs
    rcases addStagesLoop_covers _ seededStages 21 s hs' with ⟨r, hr, hk⟩ | ⟨r, hr, hk, himp, hge⟩
    · exact absurd hk.symm (hnone r hr)
    · exact ⟨r, hr, hk, himp, hge⟩
  · intro rows
    exact addStagesLoop_nodup_ids _ seededStages 21 (by decide) (by decide)

/-- C6 witness: exact matching at concrete names. -/
theorem C6_witness :
    resolveStage [] " FINAL " = some 1 ∧
    (∃ e ∈ seededStages, e.stage_id = 3 ∧
      normKey "quarter finals" = normKey e.comp_stage_kes) :=
  ⟨C6_stage_resolution.2.1 [] " FINAL " ⟨1, "Final", 1⟩ (by decide) (by decide),
   C6_stage_resolution.2.2.1 [] "quarter finals" 3
     ((C6_stage_resolution.1 []).2) (by decide)⟩

/-! ### Decimal rendering facts -/

theorem toDigitsCore_len_ge (b : Nat) : ∀ (fuel n : Nat) (acc : List Char),
    acc.length ≤ (Nat.toDigitsCore b fuel n acc).length := by
  intro fuel
  induction fuel with
  | zero => intro n acc; simp [Nat.toDigitsCore]
  | succ f ih =>
    intro n acc
    simp only [Nat.toDigitsCore]
    by_cases h : n / b = 0
    · rw [if_pos h]
      simp
    · rw [if_neg h]
      calc acc.length ≤ (Nat.digitChar (n % b) :: acc).length := by simp
        _ ≤ _ := ih (n / b) (Nat.digitChar (n % b) :: acc)

theorem toDigitsCore_chars (b : Nat) (hb : 0 < b) : ∀ (fuel n : Nat) (acc : List Char),
    ∀ c ∈ Nat.toDigitsCore b fuel n acc, c ∈ acc ∨ ∃ k, k < b ∧ c = Nat.digitChar k := by
  intro fuel
  induction fuel with
  | zero => intro n acc c hc; exact Or.inl hc
  | succ f ih =>
    intro n acc c hc
    simp only [Nat.toDigitsCore] at hc
    by_cases h : n / b = 0
    · rw [if_pos h] at hc
      rcases List.mem_cons.mp hc with h1 | h1
      · exact Or.inr ⟨n % b, Nat.mod_lt _ hb, h1⟩
      · exact Or.inl h1
    · rw [if_neg h] at hc
      rcases ih (n / b) (Nat.digitChar (n % b) :: acc) c hc with h1 | h1
      · rcases List.mem_cons.mp h1 with h2 | h2
        · exact Or.inr ⟨n % b, Nat.mod_lt _ hb, h2⟩
        · exact Or.inl h2
      · exact Or.inr h1

theorem toString_nat_ne_empty (n : Nat) : toString n ≠ "" := by
  intro h
  have hlen : 1 ≤ (Nat.toDigits 10 n).length := by
    show 1 ≤ (Nat.toDigitsCore 10 (n + 1) n []).length
    simp only [Nat.toDigitsCore]
    by_cases h10 : n / 10 = 0
    · rw [if_pos h10]
      simp
    · rw [if_neg h10]
      calc 1 = ([Nat.digitChar (n % 10)] : List Char).length := by simp
        _ ≤ _ := toDigitsCore_len_ge 10 n (n / 10) [Nat.digitChar (n % 10)]
  have hnil : Nat.toDigits 10 n = [] := congrArg String.data h
  rw [hnil] at hlen
  simp at hlen

theorem toString_nat_ne_draw (n : Nat) : toString n ≠ "draw" := by
  intro h
  have hd : 'd' ∈ Nat.toDigits 10 n := by
    have hdata : Nat.toDigits 10 n = ("draw" : String).data := congrArg String.data h
    rw [hdata]
    decide
  rcases toDigitsCore_chars 10 (by omega) (n + 1) n [] 'd' hd with h1 | ⟨k, hk, hck⟩
  · cases h1
  · have hall : ∀ k, k < 10 → Nat.digitChar k ≠ 'd' := by decide
    exact hall k hk hck.symm

/-! ### Claim C2: the winner field -/

theorem winnerStr_spec (gh ga hid aid : Option Nat) (hok : winnerBad gh ga hid aid = false) :
    (winnerStr gh ga hid aid = "draw" ↔ ∃ n, gh = some n ∧ ga = some n) ∧
    (winnerStr gh ga hid aid = "" ↔ (gh = none ∨ ga = none)) ∧
    (∀ n m, gh = some n → ga = some m →
      (m < n → ∃ i, hid = some i ∧ winnerStr gh ga hid aid = toString i) ∧
      (n < m → ∃ i, aid = some i ∧ winnerStr gh ga hid aid = toString i)) ∧
    (winnerStr gh ga hid aid = "" ∨ winnerStr gh ga hid aid = "draw" ∨
      ∃ i, (hid = some i ∨ aid = some i) ∧ winnerStr gh ga hid aid = toString i) := by
  rcases gh with _ | n <;> rcases ga with _ | m
  · have hw : winnerStr none none hid aid = "" := rfl
    rw [hw]
    refine ⟨⟨fun h => absurd h (by decide), ?_⟩, ⟨fun _ => Or.inl rfl, fun _ => rfl⟩,
      ?_, Or.inl rfl⟩
    · rintro ⟨k, hk, -⟩
      cases hk
    · intro a b ha hb
      cases ha
  · have hw : winnerStr none (some m) hid aid = "" := rfl
    rw [hw]
    refine ⟨⟨fun h => absurd h (by decide), ?_⟩, ⟨fun _ => Or.inl rfl, fun _ => rfl⟩,
      ?_, Or.inl rfl⟩
    · rintro ⟨k, hk, -⟩
      cases hk
    · intro a b ha hb
      cases ha
  · have hw : winnerStr (some n) none hid aid = "" := rfl
    rw [hw]
    refine ⟨⟨fun h => absurd h (by decide), ?_⟩, ⟨fun _ => Or.inr rfl, fun _ => rfl⟩,
      ?_, Or.inl rfl⟩
    · rintro ⟨k, -, hk⟩
      cases hk
    · intro a b ha hb
      cases hb
  · by_cases heq : n = m
    · have hw : winnerStr (some n) (some m) hid aid = "draw" := by
        simp [winnerStr, heq]
      rw [hw]
      refine ⟨⟨fun _ => ⟨n, rfl, by rw [heq]⟩, fun _ => rfl⟩, ?_, ?_, Or.inr (Or.inl rfl)⟩
      · constructor
        · intro h
          exact absurd h (by decide)
        · rintro (h | h) <;> cases h
      · intro a b ha hb
        injection ha with e1
        injection hb with e2
        exact ⟨fun hco => absurd hco (by omega), fun hco => absurd hco (by omega)⟩
    · by_cases hlt : m < n
      · obtain ⟨i, hi⟩ : ∃ i, hid = some i := by
          rcases hid with _ | i
          · exfalso
            simp [winnerBad, hlt] at hok
          · exact ⟨i, rfl⟩
        subst hi
        have hw : winnerStr (some n) (some m) (some i) aid = toString i := by
          simp [winnerStr, heq, hlt, optIdStr]
        rw [hw]
        refine ⟨?_, ?_, ?_, Or.inr (Or.inr ⟨i, Or.inl rfl, rfl⟩)⟩
        · constructor
          · intro h
            exact absurd h (toString_nat_ne_draw i)
          · rintro ⟨k, hk1, hk2⟩
            injection hk1 with e1
            injection hk2 with e2
            exact absurd heq (by omega)
        · constructor
          · intro h
            exact absurd h (toString_nat_ne_empty i)
          · rintro (h | h) <;> cases h
        · intro a b ha hb
          injection ha with e1
          injection hb with e2
          exact ⟨fun _ => ⟨i, rfl, rfl⟩, fun hco => absurd hco (by omega)⟩
      · have hnm : n < m := by omega
        obtain ⟨i, hi⟩ : ∃ i, aid = some i := by
          rcases aid with _ | i
          · exfalso
            simp [winnerBad, hnm, hlt] at hok
          · exact ⟨i, rfl⟩
        subst hi
        have hw : winnerStr (some n) (some m) hid (some i) = toString i := by
          simp [winnerStr, heq, hlt, optIdStr]
        rw [hw]
        refine ⟨?_, ?_, ?_, Or.inr (Or.inr ⟨i, Or.inr rfl, rfl⟩)⟩
        · constructor
          · intro h
            exact absurd h (toString_nat_ne_draw i)
          · rintro ⟨k, hk1, hk2⟩
            injection hk1 with e1
            injection hk2 with e2
            exact absurd heq (by omega)
        · constructor
          · intro h
            exact absurd h (toString_nat_ne_empty i)
          · rintro (h | h) <;> cases h
        · intro a b ha hb
          injection ha with e1
          injection hb with e2
          exact ⟨fun hco => absurd hco (by omega), fun _ => ⟨i, rfl, rfl⟩⟩

/-- C2: on every fact row of a completed assembly, the winner field is `"draw"`
iff both goal counts are present and equal, empty iff either goal count is
unparseable, and otherwise the rendered club id of the side with the strictly
higher count; in particular it always lies in the closed union
club-id / `"draw"` / empty. -/
theorem C2_winner (rows : List LegRow) (facts : List FactRow)
    (h : assembleAll rows = some facts) :
    ∀ f ∈ facts,
      (f.winner = "draw" ↔ ∃ n, toNumericNat f.goals_home = some n ∧
        toNumericNat f.goals_away = some n) ∧
      (f.winner = "" ↔ (toNumericNat f.goals_home = none ∨
        toNumericNat f.goals_away = none)) ∧
      (∀ n m, toNumericNat f.goals_home = some n → toNumericNat f.goals_away = some m →
        (m < n → ∃ i, f.home_club_id = some i ∧ f.winner = toString i) ∧
        (n < m → ∃ i, f.away_club_id = some i ∧ f.winner = toString i)) ∧
      (f.winner = "" ∨ f.winner = "draw" ∨
        ∃ i, (f.home_club_id = some i ∨ f.away_club_id = some i) ∧
          f.winner = toString i) := by
  intro f hf
  unfold assembleAll at h
  by_cases hbad : rows.any (rowBad (clubMapFn rows)) = true
  · rw [if_pos hbad] at h
    cases h
  · rw [if_neg hbad] at h
    have hfacts : rows.map (mkFact (cupMapFn rows) (stageMapFn rows) (clubMapFn rows)) =
        facts := by injection h
    subst hfacts
    obtain ⟨r, hr, hfr⟩ := List.mem_map.mp hf
    subst hfr
    have hnotbad : rowBad (clubMapFn rows) r = false := by
      rcases hb : rowBad (clubMapFn rows) r with _ | _
      · rfl
      · exact absurd (List.any_eq_true.mpr ⟨r, hr, hb⟩) hbad
    exact winnerStr_spec (toNumericNat r.goals_home) (toNumericNat r.goals_away)
      (clubMapFn rows (pyStrip r.home)) (clubMapFn rows (pyStrip r.away)) hnotbad

/-- C2 witness: the characterization at the first fact row assembled from a
concrete pair of candidate rows. -/
theorem C2_witness :
    (((assembleAll exLegRows).getD []).headD defFact).winner = "draw" ↔
      ∃ n, toNumericNat (((assembleAll exLegRows).getD []).headD defFact).goals_home = some n ∧
        toNumericNat (((assembleAll exLegRows).getD []).headD defFact).goals_away = some n :=
  (C2_winner exLegRows ((assembleAll exLegRows).getD []) (by decide)
    (((assembleAll exLegRows).getD []).headD defFact) (by decide)).1

/-! ### Claim C9: the assembler on unresolvable winners -/

/-- C9, evaluated at the failing input: a page whose single data row has an
empty team-1 name and leg-1 score `"2-1"` yields a non-empty candidate-row
sequence, yet the assembly emits nothing at all — the winner computation picks
the unresolved home club id, `pd.Series(winner_id, dtype="float")` calls
`float(pd.NA)` and the resulting `TypeError` aborts `main` (modelled by
`assembleAll` returning `none`) — instead of emitting the row with a null
reference as the claim requires. -/
theorem C9_crash :
    pipelineFacts [(2000, [[c9Tr]])] = none ∧ pipelineRows [(2000, [[c9Tr]])] ≠ [] := by
  refine ⟨by decide, by decide⟩

/-! ### Claim C8: the two-leg-winner reference -/

theorem idxFrom_snd : ∀ (n : Nat) (l : List String) (p : Nat × String),
    p ∈ idxFrom n l → p.2 ∈ l := by
  intro n l
  induction l generalizing n with
  | nil => intro p hp; cases hp
  | cons a as ih =>
    intro p hp
    rcases List.mem_cons.mp hp with h | h
    · subst h
      exact List.mem_cons_self _ _
    · exact List.mem_cons_of_mem _ (ih (n + 1) p h)

theorem clubNames_ne_empty (rows : List LegRow) : ∀ c ∈ clubNames rows, c ≠ "" := by
  intro c hc
  have hmem : c ∈ (((rows.map (fun r => pyStrip r.home) ++
      rows.map (fun r => pyStrip r.away)).dedup).filter (fun c => c ≠ "")) :=
    (List.perm_insertionSort _ _).mem_iff.mp hc
  have := List.of_mem_filter hmem
  simpa using this

theorem clubMapFn_some_key (rows : List LegRow) (k : String) (v : Nat)
    (h : clubMapFn rows k = some v) : k ≠ "" := by
  have hkv := lookup_mem h
  obtain ⟨p, hp, hpe⟩ := List.mem_map.mp hkv
  have hsnd : p.2 = k := congrArg Prod.fst hpe
  have := clubNames_ne_empty rows p.2 (idxFrom_snd 1 (clubNames rows) p hp)
  rw [hsnd] at this
  exact this

theorem dataRows_tlw (year : Nat) (cup stage : String)
    (t1 cc1 t2 cc2 lg1 lg2 : String) (b1 b2 : Bool) :
    ∀ r ∈ dataRows year cup stage t1 cc1 t2 cc2 lg1 lg2 b1 b2, r.two_leg_winner ≠ "" →
      r.leg_no = 1 ∧ lg2 ≠ "" ∧ b1 ≠ b2 ∧
      r.two_leg_winner = (if b1 = true then t1 else t2) := by
  obtain ⟨a1, a2, p1, _, _, _, _, _, _, _, _, _, _, _, _, _, _, _, ptlw, qtlw, heq⟩ :=
    dataRows_shape year cup stage t1 cc1 t2 cc2 lg1 lg2 b1 b2
  intro r hmem hne
  rw [heq] at hmem
  rcases List.mem_append.mp hmem with h | h
  · have hr1 : r = a1 := by
      by_cases ht : t1 ≠ "" ∨ t2 ≠ ""
      · rw [if_pos ht] at h
        simpa using h
      · rw [if_neg ht] at h
        exact absurd h (List.not_mem_nil r)
    subst hr1
    rw [ptlw] at hne
    by_cases hl2 : lg2 ≠ ""
    · rw [if_pos hl2] at hne
      refine ⟨p1, hl2, ?_, ?_⟩
      · cases b1 <;> cases b2 <;> simp_all
      · rw [ptlw, if_pos hl2]
        cases b1 <;> cases b2 <;> simp_all
    · rw [if_neg hl2] at hne
      exact absurd rfl hne
  · have hr2 : r = a2 := by
      by_cases hl2 : lg2 ≠ ""
      · rw [if_pos hl2] at h
        simpa using h
      · rw [if_neg hl2] at h
        exact absurd h (List.not_mem_nil r)
    subst hr2
    rw [qtlw] at hne
    exact absurd rfl hne

theorem processTds_tlw (year : Nat) (tds : List Cell) (cup stage : String) :
    ∀ r ∈ (processTds year tds cup stage).2.2, r.two_leg_winner ≠ "" →
      r.leg_no = 1 ∧ leg2TextOf tds ≠ "" ∧ boldOf tds 0 ≠ boldOf tds 2 ∧
      r.two_leg_winner = (if boldOf tds 0 = true then normText (cellText tds 0)
        else normText (cellText tds 2)) := by
  intro r hmem hne
  by_cases h6 : 6 ≤ tds.length
  · rw [processTds_six year cup stage tds h6] at hmem
    obtain ⟨h1, h2, h3, h4⟩ := dataRows_tlw year cup stage _ _ _ _ _ _ _ _ r hmem hne
    refine ⟨h1, ?_, h3, h4⟩
    unfold leg2TextOf
    rw [if_pos h6]
    exact h2
  · by_cases h4 : 4 ≤ tds.length
    · have hne' : tds.isEmpty = false := by
        cases tds with
        | nil => simp at h4
        | cons a t => rfl
      have hlen : (tds.length == 1) = false := by
        have hx : tds.length ≠ 1 := by omega
        simpa using hx
      have hmid : processTds year tds cup stage = (cup, stage, dataRows year cup stage
          (normText (cellText tds 0))
          (if 1 < tds.length then normText (cellText tds 1) else "")
          (if 2 < tds.length then normText (cellText tds 2) else "")
          (if 3 < tds.length then normText (cellText tds 3) else "")
          (if 4 < tds.length then normText (cellText tds 4) else "")
          (if 5 < tds.length then normText (cellText tds 5) else "")
          (boldOf tds 0) (boldOf tds 2)) := by
        unfold processTds
        rw [hne', hlen]
        simp [h6, h4]
      rw [hmid] at hmem
      obtain ⟨h1, h2, h3, hv⟩ := dataRows_tlw year cup stage _ _ _ _ _ _ _ _ r hmem hne
      exfalso
      by_cases h5 : 5 < tds.length
      · omega
      · rw [if_neg h5] at h2
        exact h2 rfl
    · rw [processTds_small year cup stage tds (by omega)] at hmem
      exact absurd hmem (List.not_mem_nil r)

theorem processTr_tlw (year : Nat) (tr : Tr) (cup stage : String) :
    ∀ r ∈ (processTr year tr cup stage).2.2, r.two_leg_winner ≠ "" →
      r.leg_no = 1 ∧ leg2TextOf tr.tds ≠ "" ∧ boldOf tr.tds 0 ≠ boldOf tr.tds 2 ∧
      r.two_leg_winner = (if boldOf tr.tds 0 = true then normText (cellText tr.tds 0)
        else normText (cellText tr.tds 2)) := by
  intro r hmem hne
  rcases ht : tr.th with _ | ti
  · simp only [processTr, ht] at hmem
    exact processTds_tlw year tr.tds cup stage r hmem hne
  · rcases hc : ti.cupDiv with _ | c
    · rcases hrd : ti.roundDiv with _ | rv
      · simp only [processTr, ht, hc, hrd] at hmem
        exact processTds_tlw year tr.tds cup stage r hmem hne
      · simp only [processTr, ht, hc, hrd] at hmem
        exact absurd hmem (List.not_mem_nil r)
    · simp only [processTr, ht, hc] at hmem
      exact absurd hmem (List.not_mem_nil r)

theorem parseTableMatches_tlw (year : Nat) :
    ∀ (trs : List Tr) (cup stage : String),
    ∀ r ∈ (parseTableMatches year trs cup stage).2, r.two_leg_winner ≠ "" →
      r.leg_no = 1 ∧ ∃ tr ∈ trs, leg2TextOf tr.tds ≠ "" ∧
        boldOf tr.tds 0 ≠ boldOf tr.tds 2 ∧
        r.two_leg_winner = (if boldOf tr.tds 0 = true then normText (cellText tr.tds 0)
          else normText (cellText tr.tds 2)) := by
  intro trs
  induction trs with
  | nil =>
    intro cup stage r hmem _
    exact absurd hmem (List.not_mem_nil r)
  | cons tr rest ih =>
    intro cup stage r hmem hne
    simp only [parseTableMatches] at hmem
    rcases List.mem_append.mp hmem with h | h
    · obtain ⟨h1, h2, h3, h4⟩ := processTr_tlw year tr cup stage r h hne
      exact ⟨h1, tr, List.mem_cons_self _ _, h2, h3, h4⟩
    · obtain ⟨h1, tr2, htr2, hrest⟩ := ih _ _ r h hne
      exact ⟨h1, tr2, List.mem_cons_of_mem _ htr2, hrest⟩

/-- C8: on every fact row of a completed run, the two-leg-winner reference is
non-null only on a leg-1 row, and then only when the candidate row carried a
non-empty two-leg-winner name whose source data row had a non-empty leg-2 text
and exactly one bold-marked team name (not both, not neither); and the
reference is the club id looked up for that marked team's name. -/
theorem C8_two_leg_winner (pages : List (Nat × List (List Tr))) (facts : List FactRow)
    (h : pipelineFacts pages = some facts) :
    ∀ f ∈ facts, f.two_leg_winner ≠ none →
      f.leg_no = 1 ∧
      ∃ r ∈ pipelineRows pages, r.leg_no = 1 ∧ r.two_leg_winner ≠ "" ∧
        f.two_leg_winner = clubMapFn (pipelineRows pages) (pyStrip r.two_leg_winner) ∧
        ∃ p ∈ pages, ∃ tr ∈ p.2.flatten, leg2TextOf tr.tds ≠ "" ∧
          boldOf tr.tds 0 ≠ boldOf tr.tds 2 ∧
          r.two_leg_winner = (if boldOf tr.tds 0 = true then normText (cellText tr.tds 0)
            else normText (cellText tr.tds 2)) := by
  intro f hf hnn
  unfold pipelineFacts assembleAll at h
  by_cases hbad :
      (pipelineRows pages).any (rowBad (clubMapFn (pipelineRows pages))) = true
  · rw [if_pos hbad] at h
    cases h
  · rw [if_neg hbad] at h
    have hfacts : (pipelineRows pages).map (mkFact (cupMapFn (pipelineRows pages))
        (stageMapFn (pipelineRows pages)) (clubMapFn (pipelineRows pages))) = facts := by
      injection h
    subst hfacts
    obtain ⟨r, hr, hfr⟩ := List.mem_map.mp hf
    subst hfr
    by_cases hleg : r.leg_no = 1
    · have hval : (mkFact (cupMapFn (pipelineRows pages)) (stageMapFn (pipelineRows pages))
          (clubMapFn (pipelineRows pages)) r).two_leg_winner =
          clubMapFn (pipelineRows pages) (pyStrip r.two_leg_winner) := by
        show (if r.leg_no = 1 then clubMapFn (pipelineRows pages)
          (pyStrip r.two_leg_winner) else none) = _
        rw [if_pos hleg]
      obtain ⟨v, hv⟩ : ∃ v,
          clubMapFn (pipelineRows pages) (pyStrip r.two_leg_winner) = some v := by
        rcases hc : clubMapFn (pipelineRows pages) (pyStrip r.two_leg_winner) with _ | v
        · exfalso
          apply hnn
          rw [hval, hc]
        · exact ⟨v, rfl⟩
      have htlwne : r.two_leg_winner ≠ "" := by
        intro he
        have hkey := clubMapFn_some_key (pipelineRows pages) (pyStrip r.two_leg_winner) v hv
        rw [he] at hkey
        exact hkey rfl
      obtain ⟨p, hp, hrp⟩ : ∃ p ∈ pages, r ∈ parsePage p.1 p.2 := by
        unfold pipelineRows at hr
        obtain ⟨l, hl, hrl⟩ := List.mem_flatten.mp hr
        obtain ⟨p, hp, hpl⟩ := List.mem_map.mp hl
        refine ⟨p, hp, ?_⟩
        rw [hpl]
        exact hrl
      have hpage : parsePage p.1 p.2 = (parseTableMatches p.1 p.2.flatten "" "").2 := by
        unfold parsePage
        rw [processYearTables_eq_flatten]
      rw [hpage] at hrp
      obtain ⟨-, tr, htr, hrest⟩ :=
        parseTableMatches_tlw p.1 p.2.flatten "" "" r hrp htlwne
      exact ⟨hleg, r, hr, hleg, htlwne, hval, p, hp, tr, htr, hrest⟩
    · exfalso
      apply hnn
      show (if r.leg_no = 1 then clubMapFn (pipelineRows pages)
        (pyStrip r.two_leg_winner) else none) = none
      rw [if_neg hleg]

/-- C8 witness: the characterization at the first fact row of a concrete
one-page run with a bold-marked two-leg tie. -/
theorem C8_witness :
    (((pipelineFacts c8Pages).getD []).headD defFact).leg_no = 1 ∧
    ∃ r ∈ pipelineRows c8Pages, r.leg_no = 1 ∧ r.two_leg_winner ≠ "" ∧
      (((pipelineFacts c8Pages).getD []).headD defFact).two_leg_winner =
        clubMapFn (pipelineRows c8Pages) (pyStrip r.two_leg_winner) ∧
      ∃ p ∈ c8Pages, ∃ tr ∈ p.2.flatten, leg2TextOf tr.tds ≠ "" ∧
        boldOf tr.tds 0 ≠ boldOf tr.tds 2 ∧
        r.two_leg_winner = (if boldOf tr.tds 0 = true then normText (cellText tr.tds 0)
          else normText (cellText tr.tds 2)) :=
  C8_two_leg_winner c8Pages ((pipelineFacts c8Pages).getD []) (by decide)
    (((pipelineFacts c8Pages).getD []).headD defFact) (by decide) (by decide)

example : parseScore "2-1" = some (2, 1) := by decide
example : parseScore " 10 – 3 " = some (10, 3) := by decide
example : parseScore "a-1" = none := by decide
example : parseScore "2-1 agg" = none := by decide
example : normCupName "  UEFA Cup " = "EUROPA LEAGUE" := by decide
example : normCupName "UEFA Europa League" = "EUROPA LEAGUE" := by decide
example : normCupName " My Cup " = "My Cup" := by decide
example : normKey " Quarter Finals " = "quarter finals" := by decide

end KES
